import Mathlib

/-!
Shallow embedding of the orion context-broker client (`src/orion.go`).

The HTTP transport (the `Server.get/post/put/delete/do` plumbing) is the
external collaborator: each operation is parametrised by a function from
the request path (and body, where one is sent) to the decoded wire
response or a transport/decode error, exactly the interface the Go
methods consume after `json.Unmarshal`.  Everything downstream of the
decode — status interpretation, attribute typing, pagination — is
translated from the source.

Go's `string` is modelled by `String`, `int`/`int64` by `Int` (with
explicit 64-bit range conditions where the source's width matters),
`uint` status codes by `Nat`, and `float64` values decoded by
`strconv.ParseFloat` by exact rationals (`Rat`); no claim depends on
IEEE rounding, only on parse success/failure and on the zero value.
-/

set_option autoImplicit false

/-- Transport-or-decode errors are Go `error` values; the source builds
them with `fmt.Errorf`, so they are modelled by their message strings. -/
abbrev GoErr := String

deriving instance DecidableEq for Except

/-! ## Decimal formatting and parsing (`strconv.FormatInt` / `ParseInt`) -/

/-- Value of an ASCII digit character, as Go's per-character conversion
`c - '0'` in the `strconv` digit loops. -/
def charToDigit (c : Char) : Nat := c.toNat - 48

/-- ASCII digit character for a value below ten. -/
def digitToChar (d : Nat) : Char := Char.ofNat (48 + d)

/-- Value of a little-endian digit list (units digit first). -/
def ofDigitsLE : List Nat → Nat
  | [] => 0
  | d :: ds => d + 10 * ofDigitsLE ds

/-- Division loop of `strconv.FormatInt`, with structural fuel so the
kernel can evaluate it; `fuel = n` always suffices. -/
def natDigitsRevFuel : Nat → Nat → List Nat
  | 0, _ => []
  | fuel + 1, n => if n = 0 then [] else n % 10 :: natDigitsRevFuel fuel (n / 10)

/-- Little-endian decimal digits of `n` (empty for `0`), as produced by
the division loop inside `strconv.FormatInt`. -/
def natDigitsRev (n : Nat) : List Nat :=
  natDigitsRevFuel n n

/-- Model of `strconv.FormatInt` (base 10) on a non-negative value. -/
def goFormatNat (n : Nat) : String :=
  if n = 0 then "0" else ⟨((natDigitsRev n).reverse).map digitToChar⟩

/-- Model of `strconv.FormatInt(v, 10)`: minimal decimal digits with a leading
minus sign for negative values. -/
def goFormatInt (v : Int) : String :=
  if v < 0 then "-" ++ goFormatNat (-v).toNat else goFormatNat v.toNat

/-- Model of `strconv.ParseInt(s, 10, 64)`: optional single sign, then a
non-empty run of decimal digits, with the 64-bit range check; `none`
models a non-nil `err` (both syntax and range errors, since the caller
only tests `err != nil`). -/
def goParseInt (s : String) : Option Int :=
  match s.data with
  | [] => none
  | c :: cs =>
    let ds := if c = '-' ∨ c = '+' then cs else c :: cs
    if ds = [] ∨ ¬ (∀ d ∈ ds, d.isDigit = true) then none
    else
      let n : Nat := ofDigitsLE ((ds.reverse).map charToDigit)
      let v : Int := if c = '-' then -(n : Int) else (n : Int)
      if -(2 ^ 63) ≤ v ∧ v ≤ 2 ^ 63 - 1 then some v else none

/-! ## Decimal float parsing (`strconv.ParseFloat(s, 64)`)

Only the success/failure of the parse and the sign/magnitude of the
decimal literal are claim-relevant, so the value is the exact rational
denoted by the decimal text.  Go's special spellings `inf`, `infinity`
and `nan` (case-insensitive, optionally signed) parse with a nil error;
they carry no rational value, so they map to `0` here — no claim
touches their value.  Hex-float syntax and digit-separating
underscores, which Go also accepts, are omitted: no stored attribute
value in any claim uses them. -/

/-- ASCII lower-casing, as Go's `special` check lower-cases candidates. -/
def lowerAsciiChar (c : Char) : Char :=
  if 'A' ≤ c ∧ c ≤ 'Z' then Char.ofNat (c.toNat + 32) else c

/-- The `inf` / `infinity` / `nan` special spellings (sign already
stripped); parses with a nil error in Go. -/
def goParseFloatSpecial (cs : List Char) : Option Rat :=
  let l := cs.map lowerAsciiChar
  if l = "inf".data ∨ l = "infinity".data ∨ l = "nan".data then some 0 else none

/-- Exponent suffix: empty, or `e`/`E`, an optional sign, and a
non-empty digit run. -/
def parseExpPart (cs : List Char) : Option Int :=
  match cs with
  | [] => some 0
  | c :: rest =>
    if c = 'e' ∨ c = 'E' then
      match rest with
      | '+' :: ds =>
        if ds ≠ [] ∧ (∀ d ∈ ds, d.isDigit = true) then
          some ((ofDigitsLE ((ds.reverse).map charToDigit) : Nat) : Int)
        else none
      | '-' :: ds =>
        if ds ≠ [] ∧ (∀ d ∈ ds, d.isDigit = true) then
          some (-((ofDigitsLE ((ds.reverse).map charToDigit) : Nat) : Int))
        else none
      | ds =>
        if ds ≠ [] ∧ (∀ d ∈ ds, d.isDigit = true) then
          some ((ofDigitsLE ((ds.reverse).map charToDigit) : Nat) : Int)
        else none
    else none

/-- Exact power of ten with an integer exponent, used to scale the
decoded mantissa. -/
def ratPow10 (e : Int) : Rat :=
  if 0 ≤ e then ((10 ^ e.toNat : Nat) : Rat) else 1 / ((10 ^ (-e).toNat : Nat) : Rat)

/-- Model of `strconv.ParseFloat(s, 64)` on decimal syntax: optional sign,
special spellings, else a mantissa with at least one digit and an
optional fraction dot, then an optional exponent. -/
def goParseFloat (s : String) : Option Rat :=
  match s.data with
  | [] => none
  | c :: cs =>
    let body := if c = '-' ∨ c = '+' then cs else c :: cs
    let signed : Rat → Rat := fun v => if c = '-' then -v else v
    match goParseFloatSpecial body with
    | some v => some (signed v)
    | none =>
      let ip := body.takeWhile Char.isDigit
      let rest1 := body.dropWhile Char.isDigit
      let fp := match rest1 with
        | '.' :: t => t.takeWhile Char.isDigit
        | _ => []
      let rest2 := match rest1 with
        | '.' :: t => t.dropWhile Char.isDigit
        | _ => rest1
      if ip ++ fp = [] then none
      else
        match parseExpPart rest2 with
        | none => none
        | some ex =>
          let mant : Rat := (ofDigitsLE (((ip ++ fp).reverse).map charToDigit) : Nat)
          some (signed (mant * ratPow10 (ex - (fp.length : Int))))

/-! ## The typed attribute model (`Attribute`, `Attributes`) -/

/-- A tagged value: wire type tag and string-encoded value.  The Go
field `Type` is spelled `Typ` (`Type` is reserved in Lean). -/
structure Attribute where
  Typ : String
  Value : String

deriving DecidableEq, Repr

/-- The `Attributes` type: a map from attribute name to `Attribute`, modelled as
an association list with most-recent-insertion first; Go map iteration
order is unspecified, and none of the operations depend on order. -/
structure Attributes where
  values : List (String × Attribute)

deriving DecidableEq, Repr

def NewAttributes : Attributes := ⟨[]⟩

/-- The effect of Go's map assignment `self.values[name] = attr`. -/
def Attributes.set (self : Attributes) (name : String) (attr : Attribute) : Attributes :=
  ⟨(name, attr) :: self.values.filter (fun p => p.1 ≠ name)⟩

/-- Map lookup `self.values[name]`, presence as `Option`. -/
def Attributes.find (self : Attributes) (name : String) : Option Attribute :=
  self.values.lookup name

/-- The dynamic type of the `interface{}` argument of `Attributes.Add`.
The source switches on `string`, `int`, `int64`, `float32`, `float64`
and `Attribute`; every other dynamic type (the spec's example is a
boolean) falls to the `default` arm.  The float cases carry the
`strconv.FormatFloat(_, 'f', -1, bits)` shortest-decimal rendering of
the value, the only part of a float argument the source ever stores. -/
inductive NativeValue where
  | goString (s : String)
  | goInt (n : Int)
  | goInt64 (n : Int)
  | goFloat32 (formatted : String)
  | goFloat64 (formatted : String)
  | goAttribute (a : Attribute)
  | goBool (b : Bool)

deriving DecidableEq, Repr

/-- Go's `Attributes.Add`: infer the wire type tag from the dynamic type and
store the attribute; the `default` arm returns the error before the map
assignment, so the mapping is unchanged.  The pair returns Go's
`(error, receiver state after the call)`. -/
def Attributes.Add (self : Attributes) (name : String) (value : NativeValue) :
    Except GoErr Unit × Attributes :=
  match value with
  | .goString el => (.ok (), self.set name ⟨"string", el⟩)
  | .goInt el => (.ok (), self.set name ⟨"int", goFormatInt el⟩)
  | .goInt64 el => (.ok (), self.set name ⟨"int", goFormatInt el⟩)
  | .goFloat32 el => (.ok (), self.set name ⟨"float", el⟩)
  | .goFloat64 el => (.ok (), self.set name ⟨"int", el⟩)
  | .goAttribute el => (.ok (), self.set name el)
  | .goBool _ => (.error "unsupported implicit type", self)

/-- Go's `Attributes.Get`: the raw entry and a presence flag (zero-value
`Attribute` when absent, as Go's comma-ok map read). -/
def Attributes.Get (self : Attributes) (name : String) : Attribute × Bool :=
  match self.find name with
  | some entry => (entry, true)
  | none => (⟨"", ""⟩, false)

/-- Go's `Attributes.GetString`: the stored string-encoded value and a
presence flag; no parsing, no type check. -/
def Attributes.GetString (self : Attributes) (name : String) : String × Bool :=
  match self.find name with
  | some entry => (entry.Value, true)
  | none => ("", false)

/-- Go's `Attributes.GetInt`: parse the stored value with
`strconv.ParseInt(_, 10, 64)`; a parse error yields the zero value with
presence still true. -/
def Attributes.GetInt (self : Attributes) (name : String) : Int × Bool :=
  match self.find name with
  | some entry =>
    match goParseInt entry.Value with
    | none => (0, true)
    | some value => (value, true)
  | none => (0, false)

/-- Go's `Attributes.GetFloat`: parse the stored value with
`strconv.ParseFloat(_, 64)`; a parse error yields the zero value with
presence still true. -/
def Attributes.GetFloat (self : Attributes) (name : String) : Rat × Bool :=
  match self.find name with
  | some entry =>
    match goParseFloat entry.Value with
    | none => (0, true)
    | some value => (value, true)
  | none => (0, false)

/-! ## Wire envelope types -/

/-- The `wireAttribute` envelope: one `{name, type, value}` triple. -/
structure WireAttribute where
  Name : String
  Typ : String
  Value : String

deriving DecidableEq, Repr

/-- The `wireAttributes` envelope: the `{"attributes": [...]}` envelope.  The Go
field `Attributes` is spelled lowercase to keep it distinct from the
`Attributes` type inside this namespace. -/
structure WireAttributes where
  attributes : List WireAttribute

deriving DecidableEq, Repr

/-- Go's `Attributes.toWire`: emit one triple per stored entry.  Go ranges
over the map in unspecified order; here the entries come in list
order. -/
def Attributes.toWire (self : Attributes) : WireAttributes :=
  ⟨self.values.map (fun p => ⟨p.1, p.2.Typ, p.2.Value⟩)⟩

/-- Go's `wireAttributes.toAttributes`: rebuild an `Attributes` through the
`Add` pass-through path; the source discards `Add`'s error (the
`Attribute` arm never produces one). -/
def WireAttributes.toAttributes (self : WireAttributes) : Attributes :=
  self.attributes.foldl
    (fun acc el => (acc.Add el.Name (.goAttribute ⟨el.Typ, el.Value⟩)).2)
    NewAttributes

/-- The `wireId` envelope: entity identifier envelope (`Type` spelled `Typ`). -/
structure WireId where
  Id : String
  IsPattern : Bool
  Typ : String

deriving DecidableEq, Repr

/-- The `wireStatus` envelope: numeric code plus reason phrase. -/
structure WireStatus where
  Code : Nat
  Message : String

deriving DecidableEq, Repr

/-- The `wireAlteredContextElement` envelope: embedded `wireAttributes` plus the
embedded `statusCode` object. -/
structure WireAlteredContextElement where
  attrs : WireAttributes
  statusCode : WireStatus

deriving DecidableEq, Repr

/-- The `wireAlteredContextResponse` envelope: `contextResponses` list plus an
embedded `wireId`. -/
structure WireAlteredContextResponse where
  Elements : List WireAlteredContextElement
  wid : WireId

deriving DecidableEq, Repr

/-- The anonymous `contextElement` struct: embedded `wireAttributes`
and `wireId`. -/
structure WireContextElement where
  attrs : WireAttributes
  wid : WireId

deriving DecidableEq, Repr

/-- The `wireQueryContextElement` envelope: a `contextElement` plus its embedded
`statusCode`. -/
structure WireQueryContextElement where
  ContextElement : WireContextElement
  statusCode : WireStatus

deriving DecidableEq, Repr

/-- The `wireQueryContextResponse` envelope: the `contextResponses` list. -/
structure WireQueryContextResponse where
  Elements : List WireQueryContextElement

deriving DecidableEq, Repr

/-! ## Entities and the broker client operations -/

/-- A concrete entity: the Go `Entity` interface exposes `Id()`,
`Type()`, `Attributes()` and `SetAttributes(_)`; a record with the
three data fields models exactly that capability surface, with
`SetAttributes` as functional update of `attrs`. -/
structure GoEntity where
  id : String
  etype : String
  attrs : Attributes

deriving DecidableEq, Repr

/-- The `EntityFactory` callback: `(etype, id) → Entity`. -/
abbrev EntityFactory := String → String → GoEntity

/-- The `/v1/contextEntities/type/{type}/id/{id}` path every per-entity
operation builds with `fmt.Sprintf`. -/
def entityPath (etype id : String) : String :=
  "/v1/contextEntities/type/" ++ etype ++ "/id/" ++ id

/-- The single-page listing path; `url.QueryEscape` of a decimal
rendering is the identity (digits and the minus sign are unreserved),
so it is dropped. -/
def entitiesPath (etype : String) (page : Nat) : String :=
  "/v1/contextEntityTypes/" ++ etype ++ "?limit=" ++ goFormatInt 100
    ++ "&offset=" ++ goFormatInt ((page : Int) * 100)

/-- The `entity creation failed` message of `NewEntity` (and, verbatim,
of `UpdateEntity` — the source reuses the string). -/
def opFailedCreateMsg (code : Nat) (msg : String) : String :=
  "entity creation failed. code=" ++ goFormatNat code ++ " message=" ++ msg

/-- The `entity lookup failed` message of `EntityById`. -/
def opFailedLookupMsg (code : Nat) (msg : String) : String :=
  "entity lookup failed. code=" ++ goFormatNat code ++ " message=" ++ msg

/-- Outcome of a call that may return normally, return an error, or
panic (Go run-time fault, e.g. indexing an empty slice). -/
inductive CallOutcome where
  | ok
  | err (e : GoErr)
  | crash (msg : String)

deriving DecidableEq, Repr

/-- Go's `Server.NewEntity`: POST the encoded attributes, then read
`result.Elements[0]` — with NO emptiness guard, so an empty
`contextResponses` list is a run-time index-out-of-range panic — and
fail unless its status code is 200. -/
def NewEntity (post : String → WireAttributes → Except GoErr WireAlteredContextResponse)
    (e : GoEntity) : CallOutcome :=
  match post (entityPath e.etype e.id) e.attrs.toWire with
  | .error err => .err err
  | .ok result =>
    match result.Elements with
    | [] => .crash "runtime error: index out of range [0] with length 0"
    | status :: _ =>
      if status.statusCode.Code ≠ 200 then
        .err (opFailedCreateMsg status.statusCode.Code status.statusCode.Message)
      else .ok

/-- Go's `Server.UpdateEntity`: PUT the encoded attributes; an empty element
list is the `unexpected result` error, a first element with a non-200
code is the operation-failed error. -/
def UpdateEntity (put : String → WireAttributes → Except GoErr WireAlteredContextResponse)
    (e : GoEntity) : Except GoErr Unit :=
  match put (entityPath e.etype e.id) e.attrs.toWire with
  | .error err => .error err
  | .ok result =>
    match result.Elements with
    | [] => .error "unexpected result"
    | status :: _ =>
      if status.statusCode.Code ≠ 200 then
        .error (opFailedCreateMsg status.statusCode.Code status.statusCode.Message)
      else .ok ()

/-- Go's `Server.EntityById`: GET, and only on a decoded 200 status replace
the entity's attributes with the decoded ones.  Returns Go's `error`
paired with the (possibly updated) entity. -/
def EntityById (get : String → Except GoErr WireQueryContextElement)
    (e : GoEntity) : Except GoErr Unit × GoEntity :=
  match get (entityPath e.etype e.id) with
  | .error err => (.error err, e)
  | .ok result =>
    if result.statusCode.Code ≠ 200 then
      (.error (opFailedLookupMsg result.statusCode.Code result.statusCode.Message), e)
    else
      (.ok (), { e with attrs := result.ContextElement.attrs.toAttributes })

/-- Go's `Server.CheckEntity`: `r = err == nil && result.Code == 200`. -/
def CheckEntity (get : String → Except GoErr WireQueryContextElement)
    (eType eID : String) : Bool :=
  match get (entityPath eType eID) with
  | .error _ => false
  | .ok result => result.statusCode.Code == 200

/-- Go's `Server.EntitiesByType`: GET one page (`limit=100`,
`offset=page*100`) and build one entity per decoded element via the
factory, then install the decoded attributes. -/
def EntitiesByType (get : String → Except GoErr WireQueryContextResponse)
    (entity_type : String) (page : Nat) (f : EntityFactory) :
    Except GoErr (List GoEntity) :=
  match get (entitiesPath entity_type page) with
  | .error err => .error err
  | .ok result =>
    .ok (result.Elements.map (fun el =>
      let entity := f el.ContextElement.wid.Typ el.ContextElement.wid.Id
      { entity with attrs := el.ContextElement.attrs.toAttributes }))

/-- The `for` loop of `Server.AllEntitiesByType`, with `fuel` bounding
the number of iterations (`none` = the loop would still be running: the
source loop has no bound of its own) and a ghost trace recording the
page argument of each fetch, in order — instrumentation only, absent
from the source. -/
def allEntitiesLoop (fetch : Nat → Except GoErr (List GoEntity)) :
    Nat → Nat → List GoEntity → List Nat →
    Option (List GoEntity × Option GoErr × List Nat)
  | 0, _, _, _ => none
  | fuel + 1, page, output, trace =>
    match fetch page with
    | .error err => some (output, some err, trace ++ [page])
    | .ok chunk =>
      if chunk.length = 0 then some (output, none, trace ++ [page])
      else allEntitiesLoop fetch fuel (page + 1) (output ++ chunk) (trace ++ [page])

/-- Go's `Server.AllEntitiesByType`: run the loop from page 0 with an empty
accumulator. -/
def AllEntitiesByType (get : String → Except GoErr WireQueryContextResponse)
    (entity_type : String) (f : EntityFactory) (fuel : Nat) :
    Option (List GoEntity × Option GoErr × List Nat) :=
  allEntitiesLoop (fun p => EntitiesByType get entity_type p f) fuel 0 [] []

/-! ## Concrete transports and data used for witness evaluations -/

/-- Shared zero-ish wire identifier for concrete transports. -/
def wid0 : WireId := ⟨"", false, ""⟩

/-- Shared concrete entity for concrete calls. -/
def e0 : GoEntity := ⟨"id0", "room", NewAttributes⟩

/-- A POST transport whose decoded create response has an empty
`contextResponses` list. -/
def postEmptyResponse : String → WireAttributes → Except GoErr WireAlteredContextResponse :=
  fun _ _ => .ok ⟨[], wid0⟩

/-- PUT transport: decoded response with an empty element list. -/
def putEmptyW : String → WireAttributes → Except GoErr WireAlteredContextResponse :=
  fun _ _ => .ok ⟨[], wid0⟩

/-- PUT transport: decoded response whose first element has status 404. -/
def putFailW : String → WireAttributes → Except GoErr WireAlteredContextResponse :=
  fun _ _ => .ok ⟨[⟨⟨[]⟩, ⟨404, "not found"⟩⟩], wid0⟩

/-- PUT transport: decoded response whose first element has status 200. -/
def putOkW : String → WireAttributes → Except GoErr WireAlteredContextResponse :=
  fun _ _ => .ok ⟨[⟨⟨[]⟩, ⟨200, "OK"⟩⟩], wid0⟩

/-- GET transport failing at the transport layer. -/
def getBoomW : String → Except GoErr WireQueryContextElement :=
  fun _ => .error "boom"

/-- Decoded read response with a 404 status. -/
def qres404 : WireQueryContextElement := ⟨⟨⟨[]⟩, wid0⟩, ⟨404, "not found"⟩⟩

/-- GET transport returning the 404 response. -/
def get404W : String → Except GoErr WireQueryContextElement :=
  fun _ => .ok qres404

/-- Decoded read response with a 200 status and one attribute. -/
def qres200 : WireQueryContextElement := ⟨⟨⟨[⟨"t", "int", "21"⟩]⟩, wid0⟩, ⟨200, "OK"⟩⟩

/-- GET transport returning the 200 response. -/
def get200W : String → Except GoErr WireQueryContextElement :=
  fun _ => .ok qres200

/-- The factory used by the concrete pagination brokers. -/
def fW : EntityFactory := fun t i => ⟨i, t, NewAttributes⟩

/-- One decoded listing element (entity `id1` of type `room`). -/
def qElemW : WireQueryContextElement := ⟨⟨⟨[]⟩, ⟨"id1", false, "room"⟩⟩, ⟨200, "OK"⟩⟩

/-- The entity the factory builds from `qElemW`. -/
def entW : GoEntity := ⟨"id1", "room", NewAttributes⟩

/-- Broker serving pages of sizes 100, 100, 37 and then empty pages. -/
def getPagesW : String → Except GoErr WireQueryContextResponse := fun u =>
  if u = entitiesPath "room" 0 then .ok ⟨List.replicate 100 qElemW⟩
  else if u = entitiesPath "room" 1 then .ok ⟨List.replicate 100 qElemW⟩
  else if u = entitiesPath "room" 2 then .ok ⟨List.replicate 37 qElemW⟩
  else .ok ⟨[]⟩

/-- Broker serving one full page and then a transport error. -/
def getPageErrW : String → Except GoErr WireQueryContextResponse := fun u =>
  if u = entitiesPath "room" 0 then .ok ⟨List.replicate 100 qElemW⟩ else .error "boom"

/-! ## Decimal round-trip lemmas -/

theorem ofDigitsLE_natDigitsRevFuel :
    ∀ fuel n, n ≤ fuel → ofDigitsLE (natDigitsRevFuel fuel n) = n := by
  intro fuel
  induction fuel with
  | zero =>
    intro n hn
    have hz : n = 0 := Nat.le_zero.mp hn
    subst hz
    simp [natDigitsRevFuel, ofDigitsLE]
  | succ f ih =>
    intro n hn
    by_cases h : n = 0
    · simp [natDigitsRevFuel, h, ofDigitsLE]
    · have hdiv : n / 10 ≤ f := by
        have hlt : n / 10 < n := Nat.div_lt_self (Nat.pos_of_ne_zero h) (by decide)
        omega
      simp only [natDigitsRevFuel, if_neg h, ofDigitsLE, ih _ hdiv]
      omega

theorem natDigitsRevFuel_lt_ten :
    ∀ fuel n d, d ∈ natDigitsRevFuel fuel n → d < 10 := by
  intro fuel
  induction fuel with
  | zero => intro n d hd; simp [natDigitsRevFuel] at hd
  | succ f ih =>
    intro n d hd
    by_cases h : n = 0
    · simp [natDigitsRevFuel, h] at hd
    · simp only [natDigitsRevFuel, if_neg h, List.mem_cons] at hd
      rcases hd with h1 | h2
      · subst h1; omega
      · exact ih _ _ h2

theorem ofDigitsLE_natDigitsRev (n : Nat) : ofDigitsLE (natDigitsRev n) = n :=
  ofDigitsLE_natDigitsRevFuel n n le_rfl

theorem natDigitsRev_lt_ten (n d : Nat) (hd : d ∈ natDigitsRev n) : d < 10 :=
  natDigitsRevFuel_lt_ten n n d hd

theorem natDigitsRev_ne_nil (n : Nat) (hn : n ≠ 0) : natDigitsRev n ≠ [] := by
  intro h
  have := ofDigitsLE_natDigitsRev n
  rw [h] at this
  simp [ofDigitsLE] at this
  exact hn this.symm

theorem charToDigit_digitToChar : ∀ d, d < 10 → charToDigit (digitToChar d) = d := by decide

theorem isDigit_digitToChar : ∀ d, d < 10 → (digitToChar d).isDigit = true := by decide

theorem digitToChar_ne_sign :
    ∀ d, d < 10 → ¬(digitToChar d = '-' ∨ digitToChar d = '+') := by decide

/-- The digit block emitted for a non-zero `n` parses back to `n`:
the list is non-empty, all digits, starts with a digit, and its value is
`n`. -/
theorem formatNat_digit_block (n : Nat) (hn : n ≠ 0) :
    ∃ c cs, ((natDigitsRev n).reverse).map digitToChar = c :: cs ∧
      ¬(c = '-' ∨ c = '+') ∧
      (∀ ch ∈ c :: cs, ch.isDigit = true) ∧
      ofDigitsLE (((c :: cs).reverse).map charToDigit) = n := by
  set L := ((natDigitsRev n).reverse).map digitToChar with hL
  have hmem : ∀ ch ∈ L, ∃ d, d ∈ natDigitsRev n ∧ ch = digitToChar d := by
    intro ch hch
    rw [hL] at hch
    simp only [List.mem_map, List.mem_reverse] at hch
    obtain ⟨d, hd, hdc⟩ := hch
    exact ⟨d, hd, hdc.symm⟩
  have hdig : ∀ ch ∈ L, ch.isDigit = true := by
    intro ch hch
    obtain ⟨d, hd, rfl⟩ := hmem ch hch
    exact isDigit_digitToChar d (natDigitsRev_lt_ten n d hd)
  have hsign : ∀ ch ∈ L, ¬(ch = '-' ∨ ch = '+') := by
    intro ch hch
    obtain ⟨d, hd, rfl⟩ := hmem ch hch
    exact digitToChar_ne_sign d (natDigitsRev_lt_ten n d hd)
  have hval : ofDigitsLE ((L.reverse).map charToDigit) = n := by
    rw [hL, ← List.map_reverse, List.reverse_reverse, List.map_map]
    have : (natDigitsRev n).map (charToDigit ∘ digitToChar) = (natDigitsRev n).map id := by
      apply List.map_congr_left
      intro d hd
      simp [charToDigit_digitToChar d (natDigitsRev_lt_ten n d hd)]
    rw [this, List.map_id]
    exact ofDigitsLE_natDigitsRev n
  have hne : L ≠ [] := by
    rw [hL]
    simp only [ne_eq, List.map_eq_nil_iff, List.reverse_eq_nil_iff]
    exact natDigitsRev_ne_nil n hn
  obtain ⟨c, cs, hcons⟩ := List.exists_cons_of_ne_nil hne
  refine ⟨c, cs, hcons, ?_, ?_, ?_⟩
  · exact hsign c (hcons ▸ List.mem_cons_self c cs)
  · rw [← hcons]; exact hdig
  · rw [← hcons]; exact hval

/-- Parsing inverts formatting: `ParseInt` inverts `FormatInt` on every value in the signed 64-bit
range. -/
theorem goParseInt_goFormatInt (v : Int) (h1 : -(2 ^ 63) ≤ v) (h2 : v ≤ 2 ^ 63 - 1) :
    goParseInt (goFormatInt v) = some v := by
  by_cases hvneg : v < 0
  · have hm : (-v).toNat ≠ 0 := by omega
    obtain ⟨c, cs, hcons, hsign, hdig, hval⟩ := formatNat_digit_block (-v).toNat hm
    have hfmt : goFormatInt v = ⟨'-' :: c :: cs⟩ := by
      apply String.ext
      rw [goFormatInt, if_pos hvneg, String.data_append]
      have hnat : (goFormatNat (-v).toNat).data = c :: cs := by
        rw [goFormatNat, if_neg hm, ← hcons]
      rw [hnat]
      rfl
    rw [hfmt]
    have hstep : goParseInt ⟨'-' :: c :: cs⟩ =
        (if (c :: cs) = [] ∨ ¬ (∀ d ∈ c :: cs, d.isDigit = true) then none
         else
           if -(2 ^ 63) ≤ -((ofDigitsLE (((c :: cs).reverse).map charToDigit) : Nat) : Int) ∧
              -((ofDigitsLE (((c :: cs).reverse).map charToDigit) : Nat) : Int) ≤ 2 ^ 63 - 1 then
             some (-((ofDigitsLE (((c :: cs).reverse).map charToDigit) : Nat) : Int))
           else none) := rfl
    rw [hstep, if_neg (by push_neg; exact ⟨List.cons_ne_nil c cs, hdig⟩), hval]
    have hcast : -((((-v).toNat : Nat) : Int)) = v := by omega
    rw [hcast, if_pos ⟨h1, h2⟩]
  · push_neg at hvneg
    by_cases hz : v = 0
    · subst hz; decide
    · have hm : v.toNat ≠ 0 := by omega
      obtain ⟨c, cs, hcons, hsign, hdig, hval⟩ := formatNat_digit_block v.toNat hm
      have hc : ¬(c = '-') := fun h => hsign (Or.inl h)
      have hfmt : goFormatInt v = ⟨c :: cs⟩ := by
        apply String.ext
        rw [goFormatInt, if_neg (by omega), goFormatNat, if_neg hm, ← hcons]
      rw [hfmt]
      have hstep : goParseInt ⟨c :: cs⟩ =
          (let ds := if c = '-' ∨ c = '+' then cs else c :: cs
           if ds = [] ∨ ¬ (∀ d ∈ ds, d.isDigit = true) then none
           else
             let n : Nat := ofDigitsLE ((ds.reverse).map charToDigit)
             let w : Int := if c = '-' then -(n : Int) else (n : Int)
             if -(2 ^ 63) ≤ w ∧ w ≤ 2 ^ 63 - 1 then some w else none) := rfl
      rw [hstep]
      simp only [if_neg hsign, if_neg hc]
      rw [if_neg (by push_neg; exact ⟨List.cons_ne_nil c cs, hdig⟩), hval]
      have hcast : ((v.toNat : Nat) : Int) = v := by omega
      rw [hcast, if_pos ⟨h1, h2⟩]

/-! ## Map lemmas -/

theorem Attributes.find_set_self (self : Attributes) (name : String) (a : Attribute) :
    (self.set name a).find name = some a := by
  simp [Attributes.set, Attributes.find, List.lookup]

/-! ## Claims about the typed attribute model -/

/-- Claim C2: `Attributes.Add` tags a native string with wire type
`string`, an `int` or `int64` with `int`, a 32-bit float with `float`,
and a 64-bit float with `int` (the preserved quirk); any other native
value (e.g. a boolean) yields the `UnsupportedType` error and leaves
the attribute mapping unchanged. -/
theorem C2_add_type_inference (self : Attributes) (name : String) :
    (∀ s, (self.Add name (.goString s)).1 = .ok () ∧
      ((self.Add name (.goString s)).2).find name = some ⟨"string", s⟩) ∧
    (∀ n, (self.Add name (.goInt n)).1 = .ok () ∧
      ((self.Add name (.goInt n)).2).find name = some ⟨"int", goFormatInt n⟩) ∧
    (∀ n, (self.Add name (.goInt64 n)).1 = .ok () ∧
      ((self.Add name (.goInt64 n)).2).find name = some ⟨"int", goFormatInt n⟩) ∧
    (∀ r, (self.Add name (.goFloat32 r)).1 = .ok () ∧
      ((self.Add name (.goFloat32 r)).2).find name = some ⟨"float", r⟩) ∧
    (∀ r, (self.Add name (.goFloat64 r)).1 = .ok () ∧
      ((self.Add name (.goFloat64 r)).2).find name = some ⟨"int", r⟩) ∧
    (∀ b, self.Add name (.goBool b) = (.error "unsupported implicit type", self)) :=
  ⟨fun s => ⟨rfl, Attributes.find_set_self self name ⟨"string", s⟩⟩,
   fun n => ⟨rfl, Attributes.find_set_self self name ⟨"int", goFormatInt n⟩⟩,
   fun n => ⟨rfl, Attributes.find_set_self self name ⟨"int", goFormatInt n⟩⟩,
   fun r => ⟨rfl, Attributes.find_set_self self name ⟨"float", r⟩⟩,
   fun r => ⟨rfl, Attributes.find_set_self self name ⟨"int", r⟩⟩,
   fun _ => rfl⟩

/-- Claim C10: `GetString` returns the stored string-encoded value with
presence `true` for every present name, regardless of the declared type
tag, and `("", false)` for an absent name. -/
theorem C10_getstring_returns_stored (self : Attributes) (name : String) :
    (∀ e, self.find name = some e → self.GetString name = (e.Value, true)) ∧
    (self.find name = none → self.GetString name = ("", false)) := by
  constructor
  · intro e he
    simp [Attributes.GetString, he]
  · intro he
    simp [Attributes.GetString, he]

theorem C10_getstring_returns_stored_witness :
    (NewAttributes.set "x" ⟨"int", "42"⟩).GetString "x" = ("42", true) ∧
    (NewAttributes.set "x" ⟨"int", "42"⟩).GetString "y" = ("", false) :=
  ⟨(C10_getstring_returns_stored (NewAttributes.set "x" ⟨"int", "42"⟩) "x").1
      ⟨"int", "42"⟩ (by decide),
   (C10_getstring_returns_stored (NewAttributes.set "x" ⟨"int", "42"⟩) "y").2 (by decide)⟩

/-- Claim C3: for a present name, `GetInt` and `GetFloat` report
presence `true` even when the stored value fails to parse, returning
the zero value; for an absent name they return `(0, false)`. -/
theorem C3_presence_despite_parse_failure (self : Attributes) (name : String) :
    (∀ e, self.find name = some e →
      (goParseInt e.Value = none → self.GetInt name = (0, true)) ∧
      (goParseFloat e.Value = none → self.GetFloat name = (0, true))) ∧
    (self.find name = none →
      self.GetInt name = (0, false) ∧ self.GetFloat name = (0, false)) := by
  constructor
  · intro e he
    constructor
    · intro hp
      simp [Attributes.GetInt, he, hp]
    · intro hp
      simp [Attributes.GetFloat, he, hp]
  · intro he
    simp [Attributes.GetInt, Attributes.GetFloat, he]

theorem C3_presence_despite_parse_failure_witness :
    (NewAttributes.set "x" ⟨"int", "not-a-number"⟩).GetInt "x" = (0, true) ∧
    (NewAttributes.set "x" ⟨"int", "not-a-number"⟩).GetFloat "x" = (0, true) ∧
    (NewAttributes.set "x" ⟨"int", "not-a-number"⟩).GetInt "y" = (0, false) :=
  ⟨((C3_presence_despite_parse_failure (NewAttributes.set "x" ⟨"int", "not-a-number"⟩)
      "x").1 ⟨"int", "not-a-number"⟩ (by decide)).1 (by decide),
   ((C3_presence_despite_parse_failure (NewAttributes.set "x" ⟨"int", "not-a-number"⟩)
      "x").1 ⟨"int", "not-a-number"⟩ (by decide)).2 (by decide),
   ((C3_presence_despite_parse_failure (NewAttributes.set "x" ⟨"int", "not-a-number"⟩)
      "y").2 (by decide)).1⟩

/-- Claim C9: `Add` followed by the matching accessor is the identity:
`GetString` after a string `Add` returns the value exactly, and
`GetInt` after an `int` or `int64` `Add` returns the value exactly, for
every value in the signed 64-bit range of the Go types. -/
theorem C9_add_get_roundtrip (self : Attributes) (name : String) :
    (∀ s : String, ((self.Add name (.goString s)).2).GetString name = (s, true)) ∧
    (∀ v : Int, -(2 ^ 63) ≤ v → v ≤ 2 ^ 63 - 1 →
      ((self.Add name (.goInt v)).2).GetInt name = (v, true) ∧
      ((self.Add name (.goInt64 v)).2).GetInt name = (v, true)) := by
  constructor
  · intro s
    simp [Attributes.Add, Attributes.GetString, Attributes.find_set_self]
  · intro v hv1 hv2
    constructor <;>
      simp [Attributes.Add, Attributes.GetInt, Attributes.find_set_self,
        goParseInt_goFormatInt v hv1 hv2]

theorem C9_add_get_roundtrip_witness :
    ((NewAttributes.Add "a" (.goString "hello")).2).GetString "a" = ("hello", true) ∧
    ((NewAttributes.Add "b" (.goInt (-42))).2).GetInt "b" = (-42, true) ∧
    ((NewAttributes.Add "c" (.goInt64 9001)).2).GetInt "c" = (9001, true) :=
  ⟨(C9_add_get_roundtrip NewAttributes "a").1 "hello",
   ((C9_add_get_roundtrip NewAttributes "b").2 (-42) (by decide) (by decide)).1,
   ((C9_add_get_roundtrip NewAttributes "c").2 9001 (by decide) (by decide)).2⟩

/-! ## Claims about the broker client operations -/

/-- Claim C1 (refuting the no-crash part): a decoded create response
with an empty element list makes `NewEntity` panic on
`result.Elements[0]` instead of returning an error. -/
theorem C1_newentity_crashes_on_empty_response :
    NewEntity postEmptyResponse e0 =
      .crash "runtime error: index out of range [0] with length 0" := rfl

/-- Claim C6: on a successfully decoded update response, `UpdateEntity`
returns the `unexpected result` error for an empty element list, the
operation-failed error carrying code and message when the first
element's status is non-200, and succeeds exactly when the list is
non-empty with a 200 first status. -/
theorem C6_update_status_interpretation
    (put : String → WireAttributes → Except GoErr WireAlteredContextResponse)
    (e : GoEntity) (res : WireAlteredContextResponse)
    (h : put (entityPath e.etype e.id) e.attrs.toWire = .ok res) :
    (res.Elements = [] → UpdateEntity put e = .error "unexpected result") ∧
    (∀ el rest, res.Elements = el :: rest → el.statusCode.Code ≠ 200 →
      UpdateEntity put e =
        .error (opFailedCreateMsg el.statusCode.Code el.statusCode.Message)) ∧
    (UpdateEntity put e = .ok () ↔
      ∃ el rest, res.Elements = el :: rest ∧ el.statusCode.Code = 200) := by
  refine ⟨?_, ?_, ?_⟩
  · intro hels
    simp [UpdateEntity, h, hels]
  · intro el rest hels h200
    simp [UpdateEntity, h, hels, h200]
  · rw [UpdateEntity, h]
    obtain ⟨els, wd⟩ := res
    cases els with
    | nil => simp
    | cons el rest =>
      by_cases h200 : el.statusCode.Code = 200
      · simp [h200]
      · simp [h200]

theorem C6_update_status_interpretation_witness :
    UpdateEntity putEmptyW e0 = .error "unexpected result" ∧
    UpdateEntity putFailW e0 = .error (opFailedCreateMsg 404 "not found") ∧
    UpdateEntity putOkW e0 = .ok () :=
  ⟨(C6_update_status_interpretation putEmptyW e0 ⟨[], wid0⟩ rfl).1 rfl,
   (C6_update_status_interpretation putFailW e0 ⟨[⟨⟨[]⟩, ⟨404, "not found"⟩⟩], wid0⟩
      rfl).2.1 ⟨⟨[]⟩, ⟨404, "not found"⟩⟩ [] rfl (by decide),
   ((C6_update_status_interpretation putOkW e0 ⟨[⟨⟨[]⟩, ⟨200, "OK"⟩⟩], wid0⟩
      rfl).2.2).mpr ⟨⟨⟨[]⟩, ⟨200, "OK"⟩⟩, [], rfl, rfl⟩⟩

/-- Claim C7: `EntityById` propagates a transport/decode error with the
entity untouched, returns the lookup-failed error with the entity
untouched on a non-200 decoded status, and overwrites the entity's
attributes from the decoded element exactly on a 200 status. -/
theorem C7_entitybyid_frame (get : String → Except GoErr WireQueryContextElement)
    (e : GoEntity) :
    (∀ err, get (entityPath e.etype e.id) = .error err →
      EntityById get e = (.error err, e)) ∧
    (∀ res, get (entityPath e.etype e.id) = .ok res → res.statusCode.Code ≠ 200 →
      EntityById get e =
        (.error (opFailedLookupMsg res.statusCode.Code res.statusCode.Message), e)) ∧
    (∀ res, get (entityPath e.etype e.id) = .ok res → res.statusCode.Code = 200 →
      EntityById get e =
        (.ok (), { e with attrs := res.ContextElement.attrs.toAttributes })) := by
  refine ⟨?_, ?_, ?_⟩
  · intro err herr
    simp [EntityById, herr]
  · intro res hres h200
    simp [EntityById, hres, h200]
  · intro res hres h200
    simp [EntityById, hres, h200]

theorem C7_entitybyid_frame_witness :
    EntityById getBoomW e0 = (.error "boom", e0) ∧
    EntityById get404W e0 = (.error (opFailedLookupMsg 404 "not found"), e0) ∧
    EntityById get200W e0 =
      (.ok (), { e0 with attrs := qres200.ContextElement.attrs.toAttributes }) :=
  ⟨(C7_entitybyid_frame getBoomW e0).1 "boom" rfl,
   (C7_entitybyid_frame get404W e0).2.1 qres404 rfl (by decide),
   (C7_entitybyid_frame get200W e0).2.2 qres200 rfl rfl⟩

/-- Claim C8: `CheckEntity` is a total boolean: it is `true` exactly
when the transport succeeded and the decoded status code is 200, and
`false` on every transport/decode error or non-200 status. -/
theorem C8_checkentity_boolean (get : String → Except GoErr WireQueryContextElement)
    (eType eID : String) :
    CheckEntity get eType eID = true ↔
      ∃ res, get (entityPath eType eID) = .ok res ∧ res.statusCode.Code = 200 := by
  rw [CheckEntity]
  cases hg : get (entityPath eType eID) with
  | error err => simp
  | ok res =>
    simp only [beq_iff_eq]
    constructor
    · intro h200
      exact ⟨res, rfl, h200⟩
    · rintro ⟨res2, hres2, h200⟩
      injection hres2 with h1
      subst h1
      exact h200

/-! ## Pagination loop lemmas -/

theorem allEntitiesLoop_err (fetch : Nat → Except GoErr (List GoEntity))
    (fuel page : Nat) (output : List GoEntity) (trace : List Nat) (err : GoErr)
    (h : fetch page = .error err) :
    allEntitiesLoop fetch (fuel + 1) page output trace =
      some (output, some err, trace ++ [page]) := by
  simp [allEntitiesLoop, h]

theorem allEntitiesLoop_done (fetch : Nat → Except GoErr (List GoEntity))
    (fuel page : Nat) (output : List GoEntity) (trace : List Nat)
    (h : fetch page = .ok []) :
    allEntitiesLoop fetch (fuel + 1) page output trace =
      some (output, none, trace ++ [page]) := by
  simp [allEntitiesLoop, h]

theorem allEntitiesLoop_cont (fetch : Nat → Except GoErr (List GoEntity))
    (fuel page : Nat) (output : List GoEntity) (trace : List Nat)
    (chunk : List GoEntity) (h : fetch page = .ok chunk) (hne : chunk.length ≠ 0) :
    allEntitiesLoop fetch (fuel + 1) page output trace =
      allEntitiesLoop fetch fuel (page + 1) (output ++ chunk) (trace ++ [page]) := by
  simp [allEntitiesLoop, h, hne]

/-- A run that sees `k` non-empty pages and then an error returns the
concatenation of those pages together with the error. -/
theorem allEntitiesLoop_partial (fetch : Nat → Except GoErr (List GoEntity)) (e : GoErr) :
    ∀ (k : Nat) (chunks : Nat → List GoEntity) (page : Nat)
      (output : List GoEntity) (trace : List Nat) (fuel : Nat),
      k < fuel →
      (∀ i, i < k → fetch (page + i) = .ok (chunks i) ∧ chunks i ≠ []) →
      fetch (page + k) = .error e →
      allEntitiesLoop fetch fuel page output trace =
        some (output ++ ((List.range k).map chunks).flatten, some e,
          trace ++ (List.range (k + 1)).map (fun i => page + i)) := by
  intro k
  induction k with
  | zero =>
    intro chunks page output trace fuel hfuel hok herr
    obtain ⟨f, rfl⟩ : ∃ f, fuel = f + 1 := ⟨fuel - 1, by omega⟩
    rw [allEntitiesLoop_err fetch f page output trace e (by simpa using herr)]
    simp [List.range_succ]
  | succ k ih =>
    intro chunks page output trace fuel hfuel hok herr
    obtain ⟨f, rfl⟩ : ∃ f, fuel = f + 1 := ⟨fuel - 1, by omega⟩
    obtain ⟨h0, h0ne⟩ := hok 0 (Nat.succ_pos k)
    rw [allEntitiesLoop_cont fetch f page output trace (chunks 0)
      (by simpa using h0) (by simpa using h0ne)]
    rw [ih (fun i => chunks (i + 1)) (page + 1) (output ++ chunks 0) (trace ++ [page]) f
      (by omega)
      (fun i hi => by
        have hstep := hok (i + 1) (by omega)
        constructor
        · have harg : page + 1 + i = page + (i + 1) := by omega
          rw [harg]
          exact hstep.1
        · exact hstep.2)
      (by
        have harg : page + 1 + k = page + (k + 1) := by omega
        rw [harg]
        exact herr)]
    have hjoin : ((List.range (k + 1)).map chunks).flatten =
        chunks 0 ++ ((List.range k).map (fun i => chunks (i + 1))).flatten := by
      rw [List.range_succ_eq_map]
      simp [List.map_map, Function.comp_def, Nat.succ_eq_add_one]
    have htr : (List.range (k + 1 + 1)).map (fun i => page + i) =
        page :: (List.range (k + 1)).map (fun i => page + 1 + i) := by
      rw [List.range_succ_eq_map]
      simp only [List.map_cons, List.map_map, Nat.add_zero]
      congr 1
      apply List.map_congr_left
      intro i hi
      simp only [Function.comp_apply]
      omega
    rw [hjoin, htr]
    simp [List.append_assoc]

/-! ## Claims about pagination -/

/-- Claim C4: `AllEntitiesByType` starts at page 0, fetches each page
via `EntitiesByType` with limit 100 and offset `page*100`, advances the
page by 1 per iteration, appends pages in order, and stops at the first
empty page; with page sizes 100, 100, 37, 0 it performs exactly the
four fetches at pages 0..3 and returns the 237 accumulated entities. -/
theorem C4_pagination_schedule
    (get : String → Except GoErr WireQueryContextResponse) (etype : String)
    (f : EntityFactory) (c0 c1 c2 : List GoEntity)
    (h0 : EntitiesByType get etype 0 f = .ok c0) (l0 : c0.length = 100)
    (h1 : EntitiesByType get etype 1 f = .ok c1) (l1 : c1.length = 100)
    (h2 : EntitiesByType get etype 2 f = .ok c2) (l2 : c2.length = 37)
    (h3 : EntitiesByType get etype 3 f = .ok []) :
    (∀ fuel, 4 ≤ fuel →
      AllEntitiesByType get etype f fuel =
        some (c0 ++ c1 ++ c2, none, [0, 1, 2, 3])) ∧
    (c0 ++ c1 ++ c2).length = 237 ∧
    (∀ page, entitiesPath etype page =
      "/v1/contextEntityTypes/" ++ etype ++ "?limit=100&offset="
        ++ goFormatNat (page * 100)) := by
  refine ⟨?_, by simp [l0, l1, l2], ?_⟩
  · intro fuel hfuel
    obtain ⟨k, hk⟩ := Nat.exists_eq_add_of_le hfuel
    subst hk
    show allEntitiesLoop (fun p => EntitiesByType get etype p f) (4 + k) 0 [] [] =
      some (c0 ++ c1 ++ c2, none, [0, 1, 2, 3])
    have e4 : 4 + k = 3 + k + 1 := by omega
    rw [e4, allEntitiesLoop_cont _ _ _ _ _ c0 h0 (by omega)]
    have e3 : 3 + k = 2 + k + 1 := by omega
    rw [e3, allEntitiesLoop_cont _ _ _ _ _ c1 h1 (by omega)]
    have e2 : 2 + k = 1 + k + 1 := by omega
    rw [e2, allEntitiesLoop_cont _ _ _ _ _ c2 h2 (by omega)]
    have e1 : 1 + k = k + 1 := by omega
    rw [e1, allEntitiesLoop_done _ _ _ _ _ h3]
    simp [List.append_assoc]
  · intro page
    have h100 : goFormatInt 100 = "100" := by decide
    have hoff : goFormatInt ((page : Int) * 100) = goFormatNat (page * 100) := by
      rw [goFormatInt, if_neg (by omega)]
      congr 1
    rw [entitiesPath, h100, hoff]
    apply String.ext
    simp only [String.data_append]
    have hseg : "?limit=".data ++ ("100".data ++ "&offset=".data) =
        "?limit=100&offset=".data := by decide
    simp [List.append_assoc, hseg]

/-- Claim C5: when some page fetch fails, `AllEntitiesByType` returns
immediately with every entity collected from the pages before the
failing one together with that error — partial results are not
discarded. -/
theorem C5_partial_results_on_error
    (get : String → Except GoErr WireQueryContextResponse) (etype : String)
    (f : EntityFactory) (chunks : Nat → List GoEntity) (k : Nat) (e : GoErr)
    (hok : ∀ i, i < k → EntitiesByType get etype i f = .ok (chunks i) ∧ chunks i ≠ [])
    (herr : EntitiesByType get etype k f = .error e) :
    ∀ fuel, k < fuel →
      AllEntitiesByType get etype f fuel =
        some (((List.range k).map chunks).flatten, some e, List.range (k + 1)) := by
  intro fuel hf
  have h := allEntitiesLoop_partial (fun p => EntitiesByType get etype p f) e k chunks
    0 [] [] fuel hf (fun i hi => by simpa using hok i hi) (by simpa using herr)
  simpa [AllEntitiesByType] using h

theorem C4_pagination_schedule_witness :
    AllEntitiesByType getPagesW "room" fW 4 =
      some (List.replicate 100 entW ++ List.replicate 100 entW ++ List.replicate 37 entW,
        none, [0, 1, 2, 3]) ∧
    (List.replicate 100 entW ++ List.replicate 100 entW
      ++ List.replicate 37 entW).length = 237 := by
  have hp0 : EntitiesByType getPagesW "room" 0 fW = .ok (List.replicate 100 entW) := by
    decide
  have hp1 : EntitiesByType getPagesW "room" 1 fW = .ok (List.replicate 100 entW) := by
    decide
  have hp2 : EntitiesByType getPagesW "room" 2 fW = .ok (List.replicate 37 entW) := by
    decide
  have hp3 : EntitiesByType getPagesW "room" 3 fW = .ok [] := by
    decide
  have main := C4_pagination_schedule getPagesW "room" fW
    (List.replicate 100 entW) (List.replicate 100 entW) (List.replicate 37 entW)
    hp0 (by simp) hp1 (by simp) hp2 (by simp) hp3
  exact ⟨main.1 4 le_rfl, main.2.1⟩

theorem C5_partial_results_on_error_witness :
    AllEntitiesByType getPageErrW "room" fW 2 =
      some (List.replicate 100 entW, some "boom", [0, 1]) := by
  have hp0 : EntitiesByType getPageErrW "room" 0 fW = .ok (List.replicate 100 entW) := by
    decide
  have hp1 : EntitiesByType getPageErrW "room" 1 fW = .error "boom" := by
    decide
  have main := C5_partial_results_on_error getPageErrW "room" fW
    (fun _ => List.replicate 100 entW) 1 "boom"
    (fun i hi => by
      have hi0 : i = 0 := by omega
      subst hi0
      exact ⟨hp0, by simp⟩)
    hp1 2 (by omega)
  simpa [List.range_succ] using main
